import Mathlib

/-!
Shallow embedding of the order workflow of the e-commerce backend.

Two schema variants exist in the repository:

* the graph-walk (simple) variant: `src/server/src/handlers/create_order.ts`,
  `update_inventory.ts`, with the products/users/orders/referral_commissions
  tables of `src/server/src/db/schema.ts`;
* the referral-code (richer) variant: `src/server/src/handlers/order_handlers.ts`
  (createOrder, updateOrderStatus, cancelOrder, processPayment) and the
  distributor handlers (createDistributor, payCommission), with the
  addresses/distributors/commissions tables.

Database tables are modelled as lists of rows; monetary `numeric` columns as
rationals; integer stock as `Int` (the SQL column is a signed integer, so the
embedding can express negative stock); timestamps are not modelled except for
`paid_at` (set by payment operations from a `now` parameter).  Each handler is
a function from input and state to `Except String (state, returned row)`, with
the source's error strings.
-/

namespace ECom

inductive ProductType
  | physical
  | virtual
deriving DecidableEq

inductive OrderStatus
  | pending
  | paid
  | processing
  | shipped
  | delivered
  | cancelled
  | refunded
deriving DecidableEq

inductive PaymentStatus
  | pending
  | paid
  | failed
  | refunded
deriving DecidableEq

inductive CommissionStatus
  | pending
  | paid
  | cancelled
deriving DecidableEq

inductive DistributorStatus
  | active
  | inactive
  | suspended
deriving DecidableEq

/-- Row of the products table (both variants: id, name, physical/virtual type,
numeric price, integer stock_quantity, enabled flag). -/
structure Product where
  id : Nat
  name : String
  ptype : ProductType
  price : Rat
  stock_quantity : Int
  is_enabled : Bool
deriving DecidableEq

/-- Row of the users table (fields used by the handlers: id and the two
referrer pointers of the graph-walk variant). -/
structure User where
  id : Nat
  referrer_id : Option Nat
  secondary_referrer_id : Option Nat
deriving DecidableEq

/-- Row of the order_items table (order_id, product_id, quantity, unit_price,
total_price). -/
structure OrderItem where
  order_id : Nat
  product_id : Nat
  quantity : Int
  unit_price : Rat
  total_price : Rat
deriving DecidableEq

/-- Row of the orders table of the graph-walk variant. -/
structure SimpleOrder where
  id : Nat
  user_id : Nat
  status : OrderStatus
  total_amount : Rat
  referral_fee_level_1 : Option Rat
  referral_fee_level_2 : Option Rat
  shipping_address : Option String
deriving DecidableEq

/-- Row of the referral_commissions table of the graph-walk variant. -/
structure ReferralCommission where
  distributor_id : Nat
  order_id : Nat
  level : Nat
  commission_percentage : Rat
  commission_amount : Rat
deriving DecidableEq

/-- Database state of the graph-walk variant. -/
structure SimpleState where
  users : List User
  products : List Product
  orders : List SimpleOrder
  orderItems : List OrderItem
  referralCommissions : List ReferralCommission
  nextOrderId : Nat
deriving DecidableEq

/-- Item of a createOrder input in the graph-walk variant (product_id and
quantity; the unit price is read from the catalog). -/
structure SimpleItemInput where
  product_id : Nat
  quantity : Int
deriving DecidableEq

/-- createOrder input of the graph-walk variant. -/
structure CreateOrderSimpleInput where
  user_id : Nat
  items : List SimpleItemInput
  shipping_address : Option String
deriving DecidableEq

/-- Zod `createOrderInputSchema` of the graph-walk variant: each item needs an
integer positive quantity; the items array itself has no minimum length. -/
def simpleInputValid (i : CreateOrderSimpleInput) : Bool :=
  i.items.all (fun it => decide (0 < it.quantity))

/-- Item validated by the graph-walk createOrder: keeps the snapshot of the
product row for the later inventory update (`product` field in the source). -/
structure SimpleValidatedItem where
  product_id : Nat
  quantity : Int
  unit_price : Rat
  total_price : Rat
  product : Product
deriving DecidableEq

/-- Loop body of step 2 of the graph-walk createOrder: map lookup, inventory
check for physical products, pricing from the catalog price. -/
def buildItemsSimple (products : List Product) :
    List SimpleItemInput → Except String (List SimpleValidatedItem)
  | [] => .ok []
  | it :: rest =>
    match products.find? (fun p => decide (p.id = it.product_id)) with
    | none => .error ("Product " ++ toString it.product_id ++ " not found")
    | some p =>
      if p.ptype = ProductType.physical ∧ p.stock_quantity < it.quantity then
        .error ("Insufficient inventory for product " ++ p.name)
      else
        match buildItemsSimple products rest with
        | .error e => .error e
        | .ok restV =>
          .ok ({ product_id := it.product_id, quantity := it.quantity,
                 unit_price := p.price, total_price := p.price * (it.quantity : Rat),
                 product := p } :: restV)

/-- Step 6 of the graph-walk createOrder: for each validated item whose product
is physical, set the product row's stock to the snapshot stock minus the
quantity (an absolute write from the snapshot, not a relative decrement). -/
def decrementSimple : List SimpleValidatedItem → SimpleState → SimpleState
  | [], st => st
  | v :: rest, st =>
    let st1 :=
      if v.product.ptype = ProductType.physical then
        { st with products := st.products.map (fun p =>
            if p.id = v.product_id then
              { p with stock_quantity := v.product.stock_quantity - v.quantity }
            else p) }
      else st
    decrementSimple rest st1

/-- Referrer resolution of the graph-walk createOrder: follow the user's
pointer (if any) and look the referrer up in the users table. -/
def resolveRef (st : SimpleState) : Option Nat → Option User
  | none => none
  | some rid => st.users.find? (fun u => decide (u.id = rid))

/-- `createOrder` of `src/server/src/handlers/create_order.ts` (graph-walk
variant).  Steps: batch product existence/enabled check, per-item inventory
check and pricing, user lookup, referrer resolution with 5 percent and
3 percent fees, order insert, item inserts, physical-only stock writes,
referral-commission inserts. -/
def createOrderSimple (input : CreateOrderSimpleInput) (st : SimpleState) :
    Except String (SimpleState × SimpleOrder) :=
  let productIds := input.items.map (fun it => it.product_id)
  let products := st.products.filter (fun p => productIds.contains p.id && p.is_enabled)
  if products.length ≠ productIds.length then
    .error "Some products are not available or disabled"
  else
    match buildItemsSimple products input.items with
    | .error e => .error e
    | .ok oItems =>
      let totalAmount := (oItems.map (fun v => v.total_price)).sum
      match st.users.find? (fun u => decide (u.id = input.user_id)) with
      | none => .error "User not found"
      | some userData =>
        let referrer := resolveRef st userData.referrer_id
        let secondaryReferrer := resolveRef st userData.secondary_referrer_id
        let referralFeeLevel1 := referrer.map (fun _ => totalAmount * (5 / 100 : Rat))
        let referralFeeLevel2 := secondaryReferrer.map (fun _ => totalAmount * (3 / 100 : Rat))
        let order : SimpleOrder :=
          { id := st.nextOrderId, user_id := input.user_id, status := OrderStatus.pending,
            total_amount := totalAmount, referral_fee_level_1 := referralFeeLevel1,
            referral_fee_level_2 := referralFeeLevel2,
            shipping_address := input.shipping_address }
        let st1 := { st with orders := st.orders ++ [order], nextOrderId := st.nextOrderId + 1 }
        let st2 := { st1 with orderItems := st1.orderItems ++ oItems.map (fun v =>
          { order_id := order.id, product_id := v.product_id, quantity := v.quantity,
            unit_price := v.unit_price, total_price := v.total_price }) }
        let st3 := decrementSimple oItems st2
        let comms1 : List ReferralCommission :=
          match referrer with
          | some r => [{ distributor_id := r.id, order_id := order.id, level := 1,
                         commission_percentage := 5, commission_amount := totalAmount * (5 / 100 : Rat) }]
          | none => []
        let comms2 : List ReferralCommission :=
          match secondaryReferrer with
          | some r2 => [{ distributor_id := r2.id, order_id := order.id, level := 2,
                          commission_percentage := 3, commission_amount := totalAmount * (3 / 100 : Rat) }]
          | none => []
        let st4 := { st3 with referralCommissions := st3.referralCommissions ++ comms1 ++ comms2 }
        .ok (st4, order)

/-- `updateInventory` of `src/server/src/handlers/update_inventory.ts`:
relative stock change, rejected when the result would be negative. -/
def updateInventory (pid : Nat) (change : Int) (st : SimpleState) :
    Except String (SimpleState × Product) :=
  match st.products.find? (fun p => decide (p.id = pid)) with
  | none => .error ("Product with id " ++ toString pid ++ " not found")
  | some p =>
    let newStock := p.stock_quantity + change
    if newStock < 0 then
      .error ("Insufficient inventory. Current stock: " ++ toString p.stock_quantity ++
              ", requested change: " ++ toString change)
    else
      .ok ({ st with products := st.products.map (fun q =>
               if q.id = pid then { q with stock_quantity := newStock } else q) },
           { p with stock_quantity := newStock })

/-- Row of the addresses table (fields used to build the denormalized shipping
address string). -/
structure Address where
  id : Nat
  recipient_name : String
  province : String
  city : String
  district : String
  street_address : String
  postal_code : Option String
deriving DecidableEq

/-- Row of the distributors table of the referral-code variant. -/
structure Distributor where
  id : Nat
  user_id : Nat
  referral_code : String
  commission_rate : Rat
  total_earnings : Rat
  status : DistributorStatus
deriving DecidableEq

/-- Row of the commissions table of the referral-code variant; paid_at is the
only timestamp column the embedding keeps. -/
structure Commission where
  id : Nat
  distributor_id : Nat
  order_id : Nat
  commission_amount : Rat
  commission_rate : Rat
  status : CommissionStatus
  paid_at : Option Nat
deriving DecidableEq

/-- Row of the orders table of the referral-code variant. -/
structure RichOrder where
  id : Nat
  user_id : Nat
  order_number : String
  total_amount : Rat
  shipping_fee : Rat
  discount_amount : Rat
  final_amount : Rat
  status : OrderStatus
  payment_status : PaymentStatus
  payment_method : String
  shipping_address : String
  notes : Option String
deriving DecidableEq

/-- Database state of the referral-code variant. -/
structure RichState where
  users : List User
  addresses : List Address
  products : List Product
  orders : List RichOrder
  orderItems : List OrderItem
  distributors : List Distributor
  commissions : List Commission
  nextOrderId : Nat
  nextCommissionId : Nat
deriving DecidableEq

/-- Item of a createOrder input in the referral-code variant (the caller
supplies the unit price). -/
structure RichItemInput where
  product_id : Nat
  quantity : Int
  unit_price : Rat
deriving DecidableEq

/-- createOrder input of the referral-code variant. -/
structure CreateOrderRichInput where
  user_id : Nat
  items : List RichItemInput
  shipping_address_id : Nat
  payment_method : String
  notes : Option String
  referral_code : Option String
deriving DecidableEq

/-- Zod `createOrderInputSchema` of the referral-code variant
(`src/server/src/schema.ts`): each item needs an integer positive quantity and
a positive unit_price; the items array itself has no minimum length. -/
def richInputValid (i : CreateOrderRichInput) : Bool :=
  i.items.all (fun it => decide (0 < it.quantity) && decide (0 < it.unit_price))

/-- The denormalized shipping address string built by the referral-code
createOrder (template string over the address row, then trimmed). -/
def formatAddress (a : Address) : String :=
  (a.recipient_name ++ ", " ++ a.street_address ++ ", " ++ a.district ++ ", " ++
   a.city ++ ", " ++ a.province ++ " " ++ a.postal_code.getD "").trim

/-- Item validated by the referral-code createOrder (`validatedItems` in the
source: the input item plus its computed total_price). -/
structure RichValidatedItem where
  product_id : Nat
  quantity : Int
  unit_price : Rat
  total_price : Rat
deriving DecidableEq

/-- Validation loop of the referral-code createOrder: per-item product lookup
and stock-sufficiency check (no physical/virtual distinction in the source),
computing total_price from the caller-supplied unit price. -/
def validateItemsRich (st : RichState) :
    List RichItemInput → Except String (List RichValidatedItem)
  | [] => .ok []
  | it :: rest =>
    match st.products.find? (fun p => decide (p.id = it.product_id)) with
    | none => .error ("Product with id " ++ toString it.product_id ++ " not found")
    | some p =>
      if p.stock_quantity < it.quantity then
        .error ("Insufficient stock for product " ++ p.name ++ ". Available: " ++
                toString p.stock_quantity ++ ", requested: " ++ toString it.quantity)
      else
        match validateItemsRich st rest with
        | .error e => .error e
        | .ok restV =>
          .ok ({ product_id := it.product_id, quantity := it.quantity,
                 unit_price := it.unit_price,
                 total_price := (it.quantity : Rat) * it.unit_price } :: restV)

/-- Persistence loop of the referral-code createOrder: per item, insert the
order_items row and apply the relative SQL decrement
`stock_quantity - quantity` to the product row (every item, regardless of
product type). -/
def insertItemsAndDecrement (oid : Nat) :
    List RichValidatedItem → RichState → RichState
  | [], st => st
  | v :: rest, st =>
    let st1 := { st with
      orderItems := st.orderItems ++
        [{ order_id := oid, product_id := v.product_id, quantity := v.quantity,
           unit_price := v.unit_price, total_price := v.total_price }],
      products := st.products.map (fun p =>
        if p.id = v.product_id then
          { p with stock_quantity := p.stock_quantity - v.quantity }
        else p) }
    insertItemsAndDecrement oid rest st1

/-- Referral-code handling at the end of the richer createOrder: when a code is
supplied, resolve it to a distributor; only when one is found and active,
insert a pending commission of `final_amount * commission_rate`; otherwise do
nothing. -/
def applyReferral (oid : Nat) (finalAmount : Rat) (code : Option String)
    (st : RichState) : RichState :=
  match code with
  | none => st
  | some c =>
    match st.distributors.find? (fun d => decide (d.referral_code = c)) with
    | none => st
    | some d =>
      if d.status = DistributorStatus.active then
        { st with
          commissions := st.commissions ++
            [{ id := st.nextCommissionId, distributor_id := d.id, order_id := oid,
               commission_amount := finalAmount * d.commission_rate,
               commission_rate := d.commission_rate,
               status := CommissionStatus.pending, paid_at := none }],
          nextCommissionId := st.nextCommissionId + 1 }
      else st

/-- `createOrder` of `src/server/src/handlers/order_handlers.ts` (referral-code
variant).  Steps: user lookup, address lookup and flattening, per-item
validation and pricing from caller-supplied unit prices, flat 10.00 shipping
fee and zero discount, order insert, per-item order_items insert with relative
stock decrement, optional referral-code commission.  `ordNum` stands for the
generated order number (timestamp plus random suffix in the source). -/
def createOrderRich (ordNum : String) (input : CreateOrderRichInput)
    (st : RichState) : Except String (RichState × RichOrder) :=
  match st.users.find? (fun u => decide (u.id = input.user_id)) with
  | none => .error ("User with id " ++ toString input.user_id ++ " not found")
  | some _ =>
    match st.addresses.find? (fun a => decide (a.id = input.shipping_address_id)) with
    | none => .error ("Address with id " ++ toString input.shipping_address_id ++ " not found")
    | some addr =>
      let shippingAddress := formatAddress addr
      match validateItemsRich st input.items with
      | .error e => .error e
      | .ok vItems =>
        let totalAmount := (vItems.map (fun v => v.total_price)).sum
        let shippingFee : Rat := 10
        let discountAmount : Rat := 0
        let finalAmount := totalAmount + shippingFee - discountAmount
        let order : RichOrder :=
          { id := st.nextOrderId, user_id := input.user_id, order_number := ordNum,
            total_amount := totalAmount, shipping_fee := shippingFee,
            discount_amount := discountAmount, final_amount := finalAmount,
            status := OrderStatus.pending, payment_status := PaymentStatus.pending,
            payment_method := input.payment_method,
            shipping_address := shippingAddress, notes := input.notes }
        let st1 := { st with orders := st.orders ++ [order],
                             nextOrderId := st.nextOrderId + 1 }
        let st2 := insertItemsAndDecrement order.id vItems st1
        let st3 := applyReferral order.id finalAmount input.referral_code st2
        .ok (st3, order)

/-- Inventory-restoration loop of updateOrderStatus: per order item, apply the
relative SQL increment `stock_quantity + quantity` to the product row (every
item of the order, regardless of product type). -/
def restoreItems : List OrderItem → RichState → RichState
  | [], st => st
  | v :: rest, st =>
    let st1 := { st with products := st.products.map (fun p =>
      if p.id = v.product_id then
        { p with stock_quantity := p.stock_quantity + v.quantity }
      else p) }
    restoreItems rest st1

/-- Compensating writes of a cancellation in updateOrderStatus: restore
inventory for the order's items and set the order's commissions to
cancelled. -/
def cancelEffects (oid : Nat) (st : RichState) : RichState :=
  let items := st.orderItems.filter (fun it => decide (it.order_id = oid))
  let stR := restoreItems items st
  { stR with commissions := stR.commissions.map (fun (c : Commission) =>
      if c.order_id = oid then { c with status := CommissionStatus.cancelled } else c) }

/-- `updateOrderStatus` of `src/server/src/handlers/order_handlers.ts`: when
moving to cancelled from a non-cancelled status, apply the compensating
writes; then write the new status. -/
def updateOrderStatus (oid : Nat) (newStatus : OrderStatus) (st : RichState) :
    Except String (RichState × RichOrder) :=
  match st.orders.find? (fun o => decide (o.id = oid)) with
  | none => .error ("Order with id " ++ toString oid ++ " not found")
  | some cur =>
    let st1 :=
      if newStatus = OrderStatus.cancelled ∧ cur.status ≠ OrderStatus.cancelled then
        cancelEffects oid st
      else st
    let st2 := { st1 with orders := st1.orders.map (fun (o : RichOrder) =>
      if o.id = oid then { o with status := newStatus } else o) }
    .ok (st2, { cur with status := newStatus })

/-- `cancelOrder` of `src/server/src/handlers/order_handlers.ts`: delegates to
updateOrderStatus with status cancelled. -/
def cancelOrder (oid : Nat) (st : RichState) :
    Except String (RichState × RichOrder) :=
  updateOrderStatus oid OrderStatus.cancelled st

/-- `processPayment` of `src/server/src/handlers/order_handlers.ts`: set the
order's status and payment_status to paid and mark every commission of the
order paid with paid_at stamped; the distributors table is not touched. -/
def processPayment (now : Nat) (oid : Nat) (st : RichState) :
    Except String (RichState × RichOrder) :=
  match st.orders.find? (fun o => decide (o.id = oid)) with
  | none => .error ("Order with id " ++ toString oid ++ " not found")
  | some cur =>
    let st1 := { st with orders := st.orders.map (fun (o : RichOrder) =>
      if o.id = oid then
        { o with status := OrderStatus.paid, payment_status := PaymentStatus.paid }
      else o) }
    let st2 := { st1 with commissions := st1.commissions.map (fun (c : Commission) =>
      if c.order_id = oid then
        { c with status := CommissionStatus.paid, paid_at := some now }
      else c) }
    .ok (st2, { cur with status := OrderStatus.paid, payment_status := PaymentStatus.paid })

/-- `payCommission` of the distributor handlers (src/unnamed/part_010): reject
an absent or already-paid commission; otherwise mark it paid with paid_at and
add its amount to the owning distributor's total_earnings. -/
def payCommission (now : Nat) (cid : Nat) (st : RichState) :
    Except String (RichState × Commission) :=
  match st.commissions.find? (fun c => decide (c.id = cid)) with
  | none => .error ("Commission with id " ++ toString cid ++ " not found")
  | some comm =>
    if comm.status = CommissionStatus.paid then
      .error ("Commission " ++ toString cid ++ " is already paid")
    else
      let st1 := { st with commissions := st.commissions.map (fun (c : Commission) =>
        if c.id = cid then
          { c with status := CommissionStatus.paid, paid_at := some now }
        else c) }
      let st2 := { st1 with distributors := st1.distributors.map (fun (d : Distributor) =>
        if d.id = comm.distributor_id then
          { d with total_earnings := d.total_earnings + comm.commission_amount }
        else d) }
      .ok (st2, { comm with status := CommissionStatus.paid, paid_at := some now })

/-! Extractors over handler results, used to state properties of the state and
row a handler returns without destructuring `Except` in every statement. -/

/-- Products table after a graph-walk handler result (empty on error). -/
def productsAfterSimple (r : Except String (SimpleState × SimpleOrder)) : List Product :=
  match r with
  | .ok (s, _) => s.products
  | .error _ => []

/-- referral_commissions table after a graph-walk handler result. -/
def commissionsAfterSimple (r : Except String (SimpleState × SimpleOrder)) :
    List ReferralCommission :=
  match r with
  | .ok (s, _) => s.referralCommissions
  | .error _ => []

/-- Order returned by a graph-walk handler result. -/
def orderOfSimple (r : Except String (SimpleState × SimpleOrder)) : Option SimpleOrder :=
  match r with
  | .ok (_, o) => some o
  | .error _ => none

/-- Products table after a referral-code handler result (empty on error). -/
def productsAfterRich (r : Except String (RichState × RichOrder)) : List Product :=
  match r with
  | .ok (s, _) => s.products
  | .error _ => []

/-- Commissions table after a referral-code handler result. -/
def commissionsAfterRich (r : Except String (RichState × RichOrder)) : List Commission :=
  match r with
  | .ok (s, _) => s.commissions
  | .error _ => []

/-- Distributors table after a referral-code handler result. -/
def distributorsAfterRich (r : Except String (RichState × RichOrder)) : List Distributor :=
  match r with
  | .ok (s, _) => s.distributors
  | .error _ => []

/-- order_items table after a referral-code handler result. -/
def orderItemsAfterRich (r : Except String (RichState × RichOrder)) : List OrderItem :=
  match r with
  | .ok (s, _) => s.orderItems
  | .error _ => []

/-- Order returned by a referral-code handler result. -/
def orderOfRich (r : Except String (RichState × RichOrder)) : Option RichOrder :=
  match r with
  | .ok (_, o) => some o
  | .error _ => none

/-- Orders table after a referral-code handler result. -/
def ordersAfterRich (r : Except String (RichState × RichOrder)) : List RichOrder :=
  match r with
  | .ok (s, _) => s.orders
  | .error _ => []

/-- Run cancelOrder on the state produced by a previous handler result
(propagating a previous error), to state second-cancellation properties. -/
def cancelAgain (oid : Nat) (r : Except String (RichState × RichOrder)) :
    Except String (RichState × RichOrder) :=
  match r with
  | .ok (s, _) => cancelOrder oid s
  | .error e => .error e

/-- Whether a handler result is a success. -/
def resultOk {α : Type} (r : Except String α) : Bool :=
  match r with
  | .ok _ => true
  | .error _ => false

/-- Error message of a handler result (empty on success). -/
def errorMsg {α : Type} (r : Except String α) : String :=
  match r with
  | .ok _ => ""
  | .error e => e

/-- Total quantity restored to product `pid` by the inventory-restoration loop
over the given order items. -/
def restoredQty (pid : Nat) : List OrderItem → Int
  | [] => 0
  | v :: rest => (if v.product_id = pid then v.quantity else 0) + restoredQty pid rest

/-! Concrete test fixtures shared by the witnesses and counterexamples. -/

/-- Fixture: a shipping address row with id 1. -/
def fxAddr : Address :=
  { id := 1, recipient_name := "A", province := "P", city := "C", district := "D",
    street_address := "S", postal_code := none }

/-- Fixture: a user row with id 1 and no referrers. -/
def fxUser : User := { id := 1, referrer_id := none, secondary_referrer_id := none }

/-- Fixture: a referral-code-variant state holding user 1, address 1 and the
given catalog, with empty order and distributor tables. -/
def fxRich (ps : List Product) : RichState :=
  { users := [fxUser], addresses := [fxAddr], products := ps, orders := [],
    orderItems := [], distributors := [], commissions := [],
    nextOrderId := 1, nextCommissionId := 1 }

/-- Fixture: a referral-code-variant createOrder input for user 1 shipping to
address 1 with the given items and no referral code. -/
def fxRichInput (items : List RichItemInput) : CreateOrderRichInput :=
  { user_id := 1, items := items, shipping_address_id := 1, payment_method := "card",
    notes := none, referral_code := none }

/-- Fixture: a physical product, id 1, stock 5, price 2. -/
def fxPhysical5 : Product :=
  { id := 1, name := "P", ptype := ProductType.physical, price := 2,
    stock_quantity := 5, is_enabled := true }

/-- Fixture: a virtual product, id 1, stock 10, price 2. -/
def fxVirtual10 : Product :=
  { id := 1, name := "V", ptype := ProductType.virtual, price := 2,
    stock_quantity := 10, is_enabled := true }

/-- Fixture: a virtual product, id 1, stock 0, price 2. -/
def fxVirtual0 : Product :=
  { id := 1, name := "V", ptype := ProductType.virtual, price := 2,
    stock_quantity := 0, is_enabled := true }

/-- Fixture: an order row of the referral-code variant, id 1 for user 1,
pending, total 50, final 60. -/
def fxOrder1 : RichOrder :=
  { id := 1, user_id := 1, order_number := "N1", total_amount := 50,
    shipping_fee := 10, discount_amount := 0, final_amount := 60,
    status := OrderStatus.pending, payment_status := PaymentStatus.pending,
    payment_method := "card", shipping_address := "X", notes := none }

/-- Distributors table after a payCommission result (empty on error). -/
def distributorsAfterPay (r : Except String (RichState × Commission)) : List Distributor :=
  match r with
  | .ok (s, _) => s.distributors
  | .error _ => []

/-- Commission returned by a payCommission result. -/
def commissionOfPay (r : Except String (RichState × Commission)) : Option Commission :=
  match r with
  | .ok (_, c) => some c
  | .error _ => none

/-- Fixture: an active distributor with referral code R and zero earnings. -/
def fxDist1 : Distributor :=
  { id := 1, user_id := 1, referral_code := "R", commission_rate := 1 / 10,
    total_earnings := 0, status := DistributorStatus.active }

/-- Fixture: a pending commission of 5 for distributor 1 on order 1. -/
def fxComm1 : Commission :=
  { id := 1, distributor_id := 1, order_id := 1, commission_amount := 5,
    commission_rate := 1 / 10, status := CommissionStatus.pending, paid_at := none }

/-- Fixture: the same commission already paid. -/
def fxCommPaid : Commission :=
  { fxComm1 with status := CommissionStatus.paid, paid_at := some 5 }

/-- Fixture: referral-code-variant state for the payment claims: order 1
pending, one pending commission of 5 for distributor 1 whose total_earnings
is 0. -/
def fxPayState : RichState :=
  { fxRich [fxPhysical5] with
    orders := [fxOrder1],
    distributors := [fxDist1],
    commissions := [fxComm1],
    nextOrderId := 2, nextCommissionId := 2 }

/-- Fixture: the payment state with its commission already paid. -/
def fxPayStatePaid : RichState :=
  { fxPayState with commissions := [fxCommPaid] }

/-- Fixture: graph-walk state whose only product is virtual with stock 0. -/
def fxSimpleVirtual0 : SimpleState :=
  { users := [fxUser],
    products := [{ id := 1, name := "V", ptype := ProductType.virtual, price := 2,
                   stock_quantity := 0, is_enabled := true }],
    orders := [], orderItems := [], referralCommissions := [], nextOrderId := 1 }

/-- Fixture: graph-walk createOrder input for 5 units of product 1. -/
def fxVirtualOrderInput : CreateOrderSimpleInput :=
  { user_id := 1, items := [{ product_id := 1, quantity := 5 }], shipping_address := none }

/-- Fixture: referral-code-variant state for the cancellation claims: a
virtual product with stock 10 and a pending order 1 holding 3 units of it. -/
def fxCancelState : RichState :=
  { fxRich [fxVirtual10] with
    orders := [fxOrder1],
    orderItems := [{ order_id := 1, product_id := 1, quantity := 3,
                     unit_price := 2, total_price := 6 }],
    nextOrderId := 2 }

/-- Fixture: graph-walk-variant state with no users and one disabled
product. -/
def fxSimpleNoUser : SimpleState :=
  { users := [],
    products := [{ id := 1, name := "Q", ptype := ProductType.physical, price := 2,
                   stock_quantity := 5, is_enabled := false }],
    orders := [], orderItems := [], referralCommissions := [], nextOrderId := 1 }

/-- Fixture: graph-walk-variant createOrder input naming a nonexistent user
and the disabled product. -/
def fxSimpleBadInput : CreateOrderSimpleInput :=
  { user_id := 99, items := [{ product_id := 1, quantity := 1 }], shipping_address := none }

/-- Fixture: graph-walk-variant state with user 1 and an enabled physical
product. -/
def fxSimpleSt : SimpleState :=
  { users := [fxUser],
    products := [{ id := 1, name := "P", ptype := ProductType.physical, price := 2,
                   stock_quantity := 5, is_enabled := true }],
    orders := [], orderItems := [], referralCommissions := [], nextOrderId := 1 }

/-- total_amount of the order returned by a graph-walk handler result (0 on
error). -/
def totalAmountAfterSimple (r : Except String (SimpleState × SimpleOrder)) : Rat :=
  match r with
  | .ok (_, o) => o.total_amount
  | .error _ => 0

/-- Fixture: graph-walk state with an enabled physical product (id 1) and an
enabled virtual product (id 2). -/
def fxSimpleMixed : SimpleState :=
  { users := [fxUser],
    products := [{ id := 1, name := "P", ptype := ProductType.physical, price := 2,
                   stock_quantity := 5, is_enabled := true },
                 { id := 2, name := "V", ptype := ProductType.virtual, price := 3,
                   stock_quantity := 4, is_enabled := true }],
    orders := [], orderItems := [], referralCommissions := [], nextOrderId := 1 }

/-- Fixture: graph-walk createOrder input for user 1 ordering 2 units of
product 1 with no shipping address. -/
def fxMixedInput : CreateOrderSimpleInput :=
  { user_id := 1, items := [{ product_id := 1, quantity := 2 }], shipping_address := none }

/-- Fixture: user 1 whose referrer is user 2 and secondary referrer user 3. -/
def fxU1 : User := { id := 1, referrer_id := some 2, secondary_referrer_id := some 3 }

/-- Fixture: user 2, no referrers. -/
def fxU2 : User := { id := 2, referrer_id := none, secondary_referrer_id := none }

/-- Fixture: user 3, no referrers. -/
def fxU3 : User := { id := 3, referrer_id := none, secondary_referrer_id := none }

/-- Fixture: graph-walk state with the two-level referral chain 1 ← 2 ← 3 and
one enabled physical product. -/
def fxSimpleRef : SimpleState :=
  { users := [fxU1, fxU2, fxU3],
    products := [{ id := 1, name := "P", ptype := ProductType.physical, price := 2,
                   stock_quantity := 10, is_enabled := true }],
    orders := [], orderItems := [], referralCommissions := [], nextOrderId := 1 }

/-- Fixture: graph-walk createOrder input for user 1 ordering 2 units of
product 1. -/
def fxSimpleRefInput : CreateOrderSimpleInput :=
  { user_id := 1, items := [{ product_id := 1, quantity := 2 }], shipping_address := none }

/-- Fixture: an inactive distributor with referral code R. -/
def fxDistInactive : Distributor :=
  { id := 1, user_id := 1, referral_code := "R", commission_rate := 1 / 10,
    total_earnings := 0, status := DistributorStatus.inactive }

/-! Helper lemmas about the loops of the referral-code variant. -/

/-- The per-item persistence loop of the richer createOrder never touches the
distributors table. -/
theorem insertItemsAndDecrement_distributors (oid : Nat) :
    ∀ (vs : List RichValidatedItem) (st : RichState),
      (insertItemsAndDecrement oid vs st).distributors = st.distributors := by
  intro vs
  induction vs with
  | nil => intro st; rfl
  | cons v rest ih => intro st; simpa [insertItemsAndDecrement] using ih _

/-- The inventory-restoration loop never touches the orders table. -/
theorem restoreItems_orders :
    ∀ (vs : List OrderItem) (st : RichState), (restoreItems vs st).orders = st.orders := by
  intro vs
  induction vs with
  | nil => intro st; rfl
  | cons v rest ih => intro st; simpa [restoreItems] using ih _

/-- The inventory-restoration loop never touches the commissions table. -/
theorem restoreItems_commissions :
    ∀ (vs : List OrderItem) (st : RichState),
      (restoreItems vs st).commissions = st.commissions := by
  intro vs
  induction vs with
  | nil => intro st; rfl
  | cons v rest ih => intro st; simpa [restoreItems] using ih _

/-- The compensating writes of a cancellation never touch the orders table. -/
theorem cancelEffects_orders (oid : Nat) (st : RichState) :
    (cancelEffects oid st).orders = st.orders := by
  simp [cancelEffects, restoreItems_orders]

/-- A referral code that resolves to no distributor, or to a non-active one,
leaves the state unchanged. -/
theorem applyReferral_no_active (oid : Nat) (finalAmount : Rat) (c : String)
    (st : RichState)
    (hd : ∀ d, st.distributors.find? (fun d0 => decide (d0.referral_code = c)) = some d →
          d.status ≠ DistributorStatus.active) :
    applyReferral oid finalAmount (some c) st = st := by
  unfold applyReferral
  cases hf : st.distributors.find? (fun d0 => decide (d0.referral_code = c)) with
  | none => simp [hf]
  | some d => simp [hf, if_neg (hd d hf)]

/-- C1: in the referral-code variant, a single createOrder whose item list
names the same physical product in two lines of 5 units each, against a stock
of 5, passes validation and the stock check, yet leaves the product's
stock_quantity at -5: the code violates the never-negative stock invariant the
claim states. -/
theorem c1_duplicate_lines_drive_stock_negative :
    richInputValid (fxRichInput [⟨1, 5, 2⟩, ⟨1, 5, 2⟩]) = true ∧
    (fxRich [fxPhysical5]).products.map (fun p => p.stock_quantity) = [5] ∧
    (productsAfterRich (createOrderRich "ORD1" (fxRichInput [⟨1, 5, 2⟩, ⟨1, 5, 2⟩])
        (fxRich [fxPhysical5]))).map (fun p => p.stock_quantity) = [-5] := by
  decide

/-- C2, counterexample: in the referral-code variant, a virtual item is
stock-checked (ordering 1 unit of a virtual product with stock 0 fails with
the insufficient-stock error) and a successful order on a virtual product
decrements its stock (10 becomes 7 after ordering 3), contradicting the claim
that virtual items are never stock-checked and their stock is unchanged. -/
theorem c2_rich_variant_stock_checks_virtual :
    errorMsg (createOrderRich "O" (fxRichInput [⟨1, 1, 2⟩]) (fxRich [fxVirtual0])) =
      "Insufficient stock for product V. Available: 0, requested: 1" ∧
    (fxRich [fxVirtual10]).products.map (fun p => p.stock_quantity) = [10] ∧
    (productsAfterRich (createOrderRich "O" (fxRichInput [⟨1, 3, 2⟩])
        (fxRich [fxVirtual10]))).map (fun p => p.stock_quantity) = [7] := by
  decide

/-- C3, counterexample: processPayment marks the order's commission (amount 5)
paid with paid_at stamped, but the owning distributor's total_earnings stays
0 instead of increasing by 5 as the claim states. -/
theorem c3_process_payment_earnings_unchanged :
    (fxPayState.commissions.map (fun c => c.commission_amount) = [5]) ∧
    (fxPayState.distributors.map (fun d => d.total_earnings) = [0]) ∧
    ((commissionsAfterRich (processPayment 7 1 fxPayState)).map
        (fun c => (c.status, c.paid_at)) = [(CommissionStatus.paid, some 7)]) ∧
    ((distributorsAfterRich (processPayment 7 1 fxPayState)).map
        (fun d => d.total_earnings) = [0]) := by
  decide

/-- C5, counterexample: cancelling order 1, which holds 3 units of a virtual
product with stock 10, increments that virtual product's stock to 13,
contradicting the claim that only physical items are restored. -/
theorem c5_cancel_restores_virtual_stock :
    fxCancelState.products.map (fun p => (p.ptype, p.stock_quantity)) =
      [(ProductType.virtual, 10)] ∧
    (productsAfterRich (cancelOrder 1 fxCancelState)).map
      (fun p => p.stock_quantity) = [13] := by
  decide

/-- C7, counterexample: in the graph-walk variant, createOrder for a
nonexistent user referencing a disabled product fails with the product-batch
error, not the user-not-found error: products are validated before the user is
resolved. -/
theorem c7_simple_variant_checks_products_before_user :
    (fxSimpleNoUser.users.find? (fun u => decide (u.id = fxSimpleBadInput.user_id)) = none) ∧
    resultOk (createOrderSimple fxSimpleBadInput fxSimpleNoUser) = false ∧
    errorMsg (createOrderSimple fxSimpleBadInput fxSimpleNoUser) =
      "Some products are not available or disabled" := by
  decide

/-- C8, counterexample: an empty items list passes the zod schema of both
variants (neither requires a minimum length) and createOrder proceeds instead
of rejecting: the referral-code variant persists an order with total_amount 0,
and the graph-walk variant likewise succeeds. -/
theorem c8_empty_items_not_rejected :
    richInputValid (fxRichInput []) = true ∧
    (orderOfRich (createOrderRich "O" (fxRichInput []) (fxRich [fxPhysical5]))).map
      (fun o => o.total_amount) = some 0 ∧
    simpleInputValid { user_id := 1, items := [], shipping_address := none } = true ∧
    (orderOfSimple (createOrderSimple { user_id := 1, items := [], shipping_address := none }
        fxSimpleSt)).map (fun o => o.total_amount) = some 0 := by
  decide

/-- C7: in the referral-code variant the user is resolved first: whenever the
input's user id matches no user row, createOrder fails with the user-not-found
error, regardless of the address, the referenced products and their stock. -/
theorem c7_rich_user_resolved_first (ordNum : String) (input : CreateOrderRichInput)
    (st : RichState)
    (h : st.users.find? (fun u => decide (u.id = input.user_id)) = none) :
    createOrderRich ordNum input st =
      .error ("User with id " ++ toString input.user_id ++ " not found") := by
  unfold createOrderRich
  simp [h]

/-- Witness for C7's theorem: user 99 does not exist and the referenced
product 42 does not exist either; the failure is the user-not-found error. -/
theorem c7_rich_user_resolved_first_witness :
    ((fxRich []).users.find? (fun u =>
        decide (u.id = ({ fxRichInput [⟨42, 1, 2⟩] with user_id := 99 }).user_id)) = none) ∧
    createOrderRich "O" { fxRichInput [⟨42, 1, 2⟩] with user_id := 99 } (fxRich []) =
      .error "User with id 99 not found" :=
  ⟨by decide, c7_rich_user_resolved_first "O" { fxRichInput [⟨42, 1, 2⟩] with user_id := 99 }
      (fxRich []) (by decide)⟩

/-- C10: in the referral-code variant, a referral_code that matches no
distributor, or matches a distributor whose status is not active, is silently
ignored: createOrder returns exactly the same result (state and order) as the
same input without a referral code. -/
theorem c10_invalid_referral_code_ignored (ordNum : String)
    (input : CreateOrderRichInput) (st : RichState) (c : String)
    (hc : input.referral_code = some c)
    (hd : ∀ d, st.distributors.find? (fun d0 => decide (d0.referral_code = c)) = some d →
          d.status ≠ DistributorStatus.active) :
    createOrderRich ordNum input st =
      createOrderRich ordNum { input with referral_code := none } st := by
  obtain ⟨uid, items, said, pm, nts, rc⟩ := input
  replace hc : rc = some c := hc
  subst hc
  unfold createOrderRich
  cases hu : st.users.find? (fun u => decide (u.id = uid)) with
  | none => simp [hu]
  | some u =>
    cases ha : st.addresses.find? (fun a => decide (a.id = said)) with
    | none => simp [hu, ha]
    | some addr =>
      cases hv : validateItemsRich st items with
      | error e => simp [hu, ha, hv]
      | ok vItems =>
        simp only [hu, ha, hv]
        rw [applyReferral_no_active]
        · rfl
        · exact fun d hfd => hd d (by rwa [insertItemsAndDecrement_distributors] at hfd)

/-- Witness for C10's theorem: a referral code resolving to an inactive
distributor yields the same createOrder result as no referral code. -/
theorem c10_invalid_referral_code_ignored_witness :
    ({ fxRichInput [⟨1, 2, 3⟩] with referral_code := some "R" }).referral_code = some "R" ∧
    createOrderRich "O" { fxRichInput [⟨1, 2, 3⟩] with referral_code := some "R" }
        { fxRich [fxPhysical5] with distributors := [fxDistInactive] } =
      createOrderRich "O" { fxRichInput [⟨1, 2, 3⟩] with referral_code := none }
        { fxRich [fxPhysical5] with distributors := [fxDistInactive] } :=
  ⟨rfl, c10_invalid_referral_code_ignored "O" _ _ "R" rfl
    (fun d hfd => by
      have hfd2 : some fxDistInactive = some d := hfd
      injection hfd2 with h2
      subst h2
      decide)⟩

/-- Looking an order up by id after mapping the status-update write over the
orders table finds the status-updated image of the original row. -/
theorem find?_map_update_status (oid : Nat) (ns : OrderStatus) :
    ∀ l : List RichOrder,
      (l.map (fun (o : RichOrder) => if o.id = oid then { o with status := ns } else o)).find?
          (fun o => decide (o.id = oid)) =
        (l.find? (fun o => decide (o.id = oid))).map
          (fun (o : RichOrder) => { o with status := ns }) := by
  intro l
  induction l with
  | nil => rfl
  | cons a rest ih =>
    by_cases h : a.id = oid
    · simp [List.find?_cons, h]
    · simp [List.find?_cons, h, ih]

/-- C6: cancelling an already-cancelled order does not restore inventory:
after a successful cancellation, cancelling the same order again succeeds but
leaves the products table (every stock_quantity) exactly as after the first
cancellation, because the current status is checked before restoring. -/
theorem c6_second_cancel_leaves_stock (oid : Nat) (st : RichState)
    (h : resultOk (cancelOrder oid st) = true) :
    resultOk (cancelAgain oid (cancelOrder oid st)) = true ∧
    productsAfterRich (cancelAgain oid (cancelOrder oid st)) =
      productsAfterRich (cancelOrder oid st) := by
  cases hres : cancelOrder oid st with
  | error e => rw [hres] at h; simp [resultOk] at h
  | ok pr =>
    obtain ⟨st1, o1⟩ := pr
    unfold cancelOrder updateOrderStatus at hres
    cases hf : st.orders.find? (fun o => decide (o.id = oid)) with
    | none => rw [hf] at hres; cases hres
    | some cur =>
      rw [hf] at hres
      simp only [Except.ok.injEq, Prod.mk.injEq] at hres
      obtain ⟨hst1, ho1⟩ := hres
      have horders : st1.orders =
          st.orders.map (fun (o : RichOrder) =>
            if o.id = oid then { o with status := OrderStatus.cancelled } else o) := by
        rw [← hst1]
        by_cases hcond : cur.status = OrderStatus.cancelled
        · simp [hcond]
        · simp [hcond, cancelEffects_orders]
      simp only [cancelAgain]
      unfold cancelOrder updateOrderStatus
      rw [horders, find?_map_update_status, hf]
      simp [resultOk, productsAfterRich]

/-! Helper lemmas about the loops of the graph-walk variant. -/

/-- The physical-only inventory writes of the graph-walk createOrder never
touch the referral_commissions table. -/
theorem decrementSimple_refcomms :
    ∀ (vs : List SimpleValidatedItem) (st : SimpleState),
      (decrementSimple vs st).referralCommissions = st.referralCommissions := by
  intro vs
  induction vs with
  | nil => intro st; rfl
  | cons v rest ih =>
    intro st
    simp only [decrementSimple]
    by_cases h : v.product.ptype = ProductType.physical
    · rw [if_pos h, ih]
    · rw [if_neg h, ih]

/-- Every item validated by the graph-walk createOrder carries a product
snapshot drawn from the supplied product list, whose id is the item's
product id. -/
theorem buildItemsSimple_sound (products : List Product) :
    ∀ (items : List SimpleItemInput) (vs : List SimpleValidatedItem),
      buildItemsSimple products items = .ok vs →
      ∀ v ∈ vs, v.product ∈ products ∧ v.product.id = v.product_id := by
  intro items
  induction items with
  | nil =>
    intro vs h v hv
    simp only [buildItemsSimple, Except.ok.injEq] at h
    subst h
    cases hv
  | cons it rest ih =>
    intro vs h v hv
    simp only [buildItemsSimple] at h
    cases hfind : products.find? (fun p => decide (p.id = it.product_id)) with
    | none => simp only [hfind] at h; cases h
    | some p =>
      simp only [hfind] at h
      by_cases hcond : p.ptype = ProductType.physical ∧ p.stock_quantity < it.quantity
      · rw [if_pos hcond] at h; cases h
      · rw [if_neg hcond] at h
        cases hrest : buildItemsSimple products rest with
        | error e => simp only [hrest] at h; cases h
        | ok restV =>
          simp only [hrest, Except.ok.injEq] at h
          subst h
          rcases List.mem_cons.mp hv with rfl | hv2
          · refine ⟨List.mem_of_find?_eq_some hfind, ?_⟩
            have := List.find?_some hfind
            simpa using this
          · exact ih restV hrest v hv2

/-- The graph-walk validation loop succeeds whenever every item resolves to a
product and every item resolving to a PHYSICAL product has sufficient stock:
a virtual product's stock is never consulted by the check. -/
theorem buildItemsSimple_ok_of_physical_stock (products : List Product) :
    ∀ items : List SimpleItemInput,
      (∀ it ∈ items, ∃ p,
        products.find? (fun p2 => decide (p2.id = it.product_id)) = some p ∧
        (p.ptype = ProductType.physical → it.quantity ≤ p.stock_quantity)) →
      ∃ vs, buildItemsSimple products items = .ok vs := by
  intro items
  induction items with
  | nil => intro _; exact ⟨[], rfl⟩
  | cons it rest ih =>
    intro h
    obtain ⟨p, hp, hstock⟩ := h it (List.mem_cons_self it rest)
    obtain ⟨vs, hvs⟩ := ih (fun w hw => h w (List.mem_cons_of_mem it hw))
    have hcond : ¬(p.ptype = ProductType.physical ∧ p.stock_quantity < it.quantity) := by
      rintro ⟨h1, h2⟩
      exact absurd h2 (not_lt.mpr (hstock h1))
    refine ⟨{ product_id := it.product_id, quantity := it.quantity, unit_price := p.price,
              total_price := p.price * (it.quantity : Rat), product := p } :: vs, ?_⟩
    simp only [buildItemsSimple, hp]
    rw [if_neg hcond]
    simp only [hvs]

/-- A product row whose id is hit by no physical validated item survives the
physical-only inventory writes unchanged. -/
theorem decrementSimple_keeps :
    ∀ (vs : List SimpleValidatedItem) (st : SimpleState) (q : Product),
      q ∈ st.products →
      (∀ v ∈ vs, v.product.ptype = ProductType.physical → q.id ≠ v.product_id) →
      q ∈ (decrementSimple vs st).products := by
  intro vs
  induction vs with
  | nil =>
    intro st q hq _
    simpa [decrementSimple] using hq
  | cons v rest ih =>
    intro st q hq hq2
    simp only [decrementSimple]
    by_cases hphys : v.product.ptype = ProductType.physical
    · rw [if_pos hphys]
      apply ih
      · have hne : q.id ≠ v.product_id := hq2 v (List.mem_cons_self v rest) hphys
        have hmem := List.mem_map_of_mem (fun (p : Product) =>
          if p.id = v.product_id then
            { p with stock_quantity := v.product.stock_quantity - v.quantity }
          else p) hq
        simpa [hne] using hmem
      · exact fun w hw hwp => hq2 w (List.mem_cons_of_mem v hw) hwp
    · rw [if_neg hphys]
      exact ih st q hq (fun w hw hwp => hq2 w (List.mem_cons_of_mem v hw) hwp)

/-- Inversion of a successful graph-walk createOrder: recover the validated
items, the resolved user, and the shape of the resulting products table,
referral-commission table and returned order. -/
theorem createOrderSimple_ok_inv {input : CreateOrderSimpleInput} {st : SimpleState}
    {pr : SimpleState × SimpleOrder}
    (h : createOrderSimple input st = .ok pr) :
    ∃ oItems userData st2,
      buildItemsSimple (st.products.filter (fun p =>
        ((input.items.map (fun it => it.product_id)).contains p.id) && p.is_enabled))
        input.items = .ok oItems ∧
      st.users.find? (fun u => decide (u.id = input.user_id)) = some userData ∧
      pr.1.products = (decrementSimple oItems st2).products ∧
      st2.products = st.products ∧
      pr.2 = { id := st.nextOrderId, user_id := input.user_id,
               status := OrderStatus.pending,
               total_amount := (oItems.map (fun v => v.total_price)).sum,
               referral_fee_level_1 := (resolveRef st userData.referrer_id).map
                 (fun _ => (oItems.map (fun v => v.total_price)).sum * (5 / 100 : Rat)),
               referral_fee_level_2 := (resolveRef st userData.secondary_referrer_id).map
                 (fun _ => (oItems.map (fun v => v.total_price)).sum * (3 / 100 : Rat)),
               shipping_address := input.shipping_address } ∧
      pr.1.referralCommissions =
        st.referralCommissions ++
          (match resolveRef st userData.referrer_id with
            | some r => [{ distributor_id := r.id, order_id := st.nextOrderId, level := 1,
                           commission_percentage := 5,
                           commission_amount :=
                             (oItems.map (fun v => v.total_price)).sum * (5 / 100 : Rat) }]
            | none => []) ++
          (match resolveRef st userData.secondary_referrer_id with
            | some r2 => [{ distributor_id := r2.id, order_id := st.nextOrderId, level := 2,
                            commission_percentage := 3,
                            commission_amount :=
                              (oItems.map (fun v => v.total_price)).sum * (3 / 100 : Rat) }]
            | none => []) := by
  obtain ⟨pr1, pr2⟩ := pr
  simp only [createOrderSimple] at h
  by_cases hlen : (st.products.filter (fun p =>
      ((input.items.map (fun it => it.product_id)).contains p.id) && p.is_enabled)).length ≠
      (input.items.map (fun it => it.product_id)).length
  · rw [if_pos hlen] at h; cases h
  · rw [if_neg hlen] at h
    cases hb : buildItemsSimple (st.products.filter (fun p =>
        ((input.items.map (fun it => it.product_id)).contains p.id) && p.is_enabled))
        input.items with
    | error e => rw [hb] at h; cases h
    | ok oItems =>
      rw [hb] at h
      cases hu : st.users.find? (fun u => decide (u.id = input.user_id)) with
      | none => rw [hu] at h; cases h
      | some userData =>
        rw [hu] at h
        simp only [Except.ok.injEq, Prod.mk.injEq] at h
        obtain ⟨h1, h2⟩ := h
        subst h1
        subst h2
        refine ⟨oItems, userData, _, rfl, rfl, rfl, rfl, rfl, ?_⟩
        simp only [decrementSimple_refcomms]

/-- C2 (amended): in the graph-walk variant both the stock-sufficiency check
and the stock decrement apply only to items whose product is physical.  First
part: under unique product ids, every virtual product row survives a
successful createOrder entirely unchanged, stock included (no decrement).
Second part: when the batch existence/enabled check passes, every item
resolves, and every item resolving to a PHYSICAL product has sufficient
stock, createOrder succeeds for an existing user — a virtual item's stock is
never checked.  (In the referral-code variant the check and the decrement
apply to every item regardless of type; see the counterexample.) -/
theorem c2_graph_walk_virtual_exempt :
    (∀ (input : CreateOrderSimpleInput) (st : SimpleState),
      (st.products.map (fun p => p.id)).Nodup →
      resultOk (createOrderSimple input st) = true →
      ∀ q ∈ st.products, q.ptype = ProductType.virtual →
        q ∈ productsAfterSimple (createOrderSimple input st)) ∧
    (∀ (input : CreateOrderSimpleInput) (st : SimpleState),
      (st.products.filter (fun p =>
        ((input.items.map (fun it => it.product_id)).contains p.id) && p.is_enabled)).length =
        (input.items.map (fun it => it.product_id)).length →
      (∀ it ∈ input.items, ∃ p,
        (st.products.filter (fun p2 =>
          ((input.items.map (fun it2 => it2.product_id)).contains p2.id) && p2.is_enabled)).find?
            (fun p2 => decide (p2.id = it.product_id)) = some p ∧
        (p.ptype = ProductType.physical → it.quantity ≤ p.stock_quantity)) →
      st.users.find? (fun u => decide (u.id = input.user_id)) ≠ none →
      resultOk (createOrderSimple input st) = true) := by
  constructor
  · intro input st hnd hok q hq hvirt
    cases hres : createOrderSimple input st with
    | error e => rw [hres] at hok; simp [resultOk] at hok
    | ok pr =>
      obtain ⟨oItems, userData, st2, hb, hu, hprod, hst2, hord, hcomm⟩ :=
        createOrderSimple_ok_inv hres
      simp only [productsAfterSimple]
      rw [hprod]
      apply decrementSimple_keeps
      · rw [hst2]; exact hq
      · intro v hv hphys heq
        obtain ⟨hvmem, hvid⟩ := buildItemsSimple_sound _ _ _ hb v hv
        have hvmem2 : v.product ∈ st.products := (List.mem_filter.mp hvmem).1
        have hqv : q = v.product :=
          List.inj_on_of_nodup_map hnd hq hvmem2 (heq.trans hvid.symm)
        rw [hqv, hphys] at hvirt
        cases hvirt
  · intro input st hlen hres hu
    obtain ⟨vs, hvs⟩ :=
      buildItemsSimple_ok_of_physical_stock _ input.items hres
    cases hu2 : st.users.find? (fun u => decide (u.id = input.user_id)) with
    | none => exact absurd hu2 hu
    | some userData =>
      simp only [createOrderSimple, hlen, hvs, hu2, ne_eq]
      simp [resultOk]

/-- Witness for C2's theorem: ordering 2 units of the physical product leaves
the virtual product's row (stock 4) untouched, and ordering 5 units of a
virtual product whose stock is 0 still succeeds (no stock check). -/
theorem c2_graph_walk_virtual_exempt_witness :
    (fxSimpleMixed.products.map (fun p => p.id)).Nodup ∧
    resultOk (createOrderSimple fxMixedInput fxSimpleMixed) = true ∧
    ({ id := 2, name := "V", ptype := ProductType.virtual, price := 3,
       stock_quantity := 4, is_enabled := true } : Product) ∈
      productsAfterSimple (createOrderSimple fxMixedInput fxSimpleMixed) ∧
    resultOk (createOrderSimple fxVirtualOrderInput fxSimpleVirtual0) = true :=
  ⟨by decide, by decide,
    c2_graph_walk_virtual_exempt.1 fxMixedInput fxSimpleMixed
      (by decide) (by decide) _ (by decide) rfl,
    c2_graph_walk_virtual_exempt.2 fxVirtualOrderInput fxSimpleVirtual0 (by decide)
      (fun it hit => by
        have hit2 : it = ({ product_id := 1, quantity := 5 } : SimpleItemInput) := by
          simpa [fxVirtualOrderInput] using hit
        subst hit2
        exact ⟨{ id := 1, name := "V", ptype := ProductType.virtual, price := 2,
                 stock_quantity := 0, is_enabled := true },
               by decide, fun hphys => absurd hphys (by decide)⟩)
      (by decide)⟩

/-- C9: graph-walk commission resolution: when only a first-level referrer
resolves, exactly one level-1 record at 5 percent of total_amount is appended
to the referral_commissions table and the level-2 fee field is null; when
both levels resolve, exactly the level-1 and level-2 records at 5 and 3
percent; when neither resolves, nothing is appended and both referral fee
fields of the order are null. -/
theorem c9_graph_walk_commission_levels (input : CreateOrderSimpleInput)
    (st : SimpleState) (userData : User)
    (hok : resultOk (createOrderSimple input st) = true)
    (hu : st.users.find? (fun u => decide (u.id = input.user_id)) = some userData) :
    (∀ r, resolveRef st userData.referrer_id = some r →
      resolveRef st userData.secondary_referrer_id = none →
      commissionsAfterSimple (createOrderSimple input st) =
        st.referralCommissions ++
          [{ distributor_id := r.id, order_id := st.nextOrderId, level := 1,
             commission_percentage := 5,
             commission_amount :=
               totalAmountAfterSimple (createOrderSimple input st) * (5 / 100 : Rat) }] ∧
      (orderOfSimple (createOrderSimple input st)).map
          (fun o => (o.referral_fee_level_1, o.referral_fee_level_2)) =
        some (some (totalAmountAfterSimple (createOrderSimple input st) * (5 / 100 : Rat)),
              none)) ∧
    (∀ r r2, resolveRef st userData.referrer_id = some r →
      resolveRef st userData.secondary_referrer_id = some r2 →
      commissionsAfterSimple (createOrderSimple input st) =
        st.referralCommissions ++
          [{ distributor_id := r.id, order_id := st.nextOrderId, level := 1,
             commission_percentage := 5,
             commission_amount :=
               totalAmountAfterSimple (createOrderSimple input st) * (5 / 100 : Rat) },
           { distributor_id := r2.id, order_id := st.nextOrderId, level := 2,
             commission_percentage := 3,
             commission_amount :=
               totalAmountAfterSimple (createOrderSimple input st) * (3 / 100 : Rat) }] ∧
      (orderOfSimple (createOrderSimple input st)).map
          (fun o => (o.referral_fee_level_1, o.referral_fee_level_2)) =
        some (some (totalAmountAfterSimple (createOrderSimple input st) * (5 / 100 : Rat)),
              some (totalAmountAfterSimple (createOrderSimple input st) * (3 / 100 : Rat)))) ∧
    (resolveRef st userData.referrer_id = none →
      resolveRef st userData.secondary_referrer_id = none →
      commissionsAfterSimple (createOrderSimple input st) = st.referralCommissions ∧
      (orderOfSimple (createOrderSimple input st)).map
          (fun o => (o.referral_fee_level_1, o.referral_fee_level_2)) =
        some (none, none)) := by
  cases hres : createOrderSimple input st with
  | error e => rw [hres] at hok; simp [resultOk] at hok
  | ok pr =>
    obtain ⟨oItems, userData2, st2, hb, hu2, hprod, hst2, hord, hcomm⟩ :=
      createOrderSimple_ok_inv hres
    rw [hu] at hu2
    injection hu2 with hud
    subst hud
    refine ⟨?_, ?_, ?_⟩
    · intro r h1 h2
      simp only [commissionsAfterSimple, orderOfSimple, totalAmountAfterSimple,
        hcomm, hord, h1, h2]
      simp
    · intro r r2 h1 h2
      simp only [commissionsAfterSimple, orderOfSimple, totalAmountAfterSimple,
        hcomm, hord, h1, h2]
      simp
    · intro h1 h2
      simp only [commissionsAfterSimple, orderOfSimple, totalAmountAfterSimple,
        hcomm, hord, h1, h2]
      simp

/-- Witness for C9's theorem: user 1 with referrer 2 and secondary referrer 3
ordering 2 units at price 2 (total 4) yields exactly the two commission
records at 5 and 3 percent of the total. -/
theorem c9_graph_walk_commission_levels_witness :
    resultOk (createOrderSimple fxSimpleRefInput fxSimpleRef) = true ∧
    resolveRef fxSimpleRef fxU1.referrer_id = some fxU2 ∧
    resolveRef fxSimpleRef fxU1.secondary_referrer_id = some fxU3 ∧
    commissionsAfterSimple (createOrderSimple fxSimpleRefInput fxSimpleRef) =
      fxSimpleRef.referralCommissions ++
        [{ distributor_id := 2, order_id := 1, level := 1, commission_percentage := 5,
           commission_amount :=
             totalAmountAfterSimple (createOrderSimple fxSimpleRefInput fxSimpleRef) *
               (5 / 100 : Rat) },
         { distributor_id := 3, order_id := 1, level := 2, commission_percentage := 3,
           commission_amount :=
             totalAmountAfterSimple (createOrderSimple fxSimpleRefInput fxSimpleRef) *
               (3 / 100 : Rat) }] :=
  ⟨by decide, by decide, by decide,
    ((c9_graph_walk_commission_levels fxSimpleRefInput fxSimpleRef fxU1
        (by decide) (by decide)).2.1 fxU2 fxU3 (by decide) (by decide)).1⟩

/-- Witness for C6's theorem at the concrete cancellation fixture. -/
theorem c6_second_cancel_leaves_stock_witness :
    resultOk (cancelOrder 1 fxCancelState) = true ∧
    resultOk (cancelAgain 1 (cancelOrder 1 fxCancelState)) = true ∧
    productsAfterRich (cancelAgain 1 (cancelOrder 1 fxCancelState)) =
      productsAfterRich (cancelOrder 1 fxCancelState) :=
  ⟨by decide, (c6_second_cancel_leaves_stock 1 fxCancelState (by decide)).1,
    (c6_second_cancel_leaves_stock 1 fxCancelState (by decide)).2⟩

/-- C3 (amended): processPayment on an existing order sets the order's status
and payment_status to paid, both on the returned row and in the orders table,
and marks every commission of the order paid with paid_at stamped to the
payment time — but it leaves the distributors table, hence every
total_earnings, unchanged.  Earnings grow only through the standalone
payCommission, which rejects an already-paid commission with an explicit
error and otherwise marks the commission paid and adds its amount to the
owning distributor's previous total_earnings (cumulative, not overwritten). -/
theorem c3_process_payment_amended :
    (∀ (now oid : Nat) (st : RichState),
      resultOk (processPayment now oid st) = true →
      ((orderOfRich (processPayment now oid st)).map
          (fun o => (o.status, o.payment_status)) =
        some (OrderStatus.paid, PaymentStatus.paid)) ∧
      (∀ o ∈ ordersAfterRich (processPayment now oid st), o.id = oid →
        o.status = OrderStatus.paid ∧ o.payment_status = PaymentStatus.paid) ∧
      (∀ c ∈ commissionsAfterRich (processPayment now oid st), c.order_id = oid →
        c.status = CommissionStatus.paid ∧ c.paid_at = some now) ∧
      distributorsAfterRich (processPayment now oid st) = st.distributors) ∧
    (∀ (now cid : Nat) (st : RichState) (comm : Commission),
      st.commissions.find? (fun c => decide (c.id = cid)) = some comm →
      (comm.status = CommissionStatus.paid →
        payCommission now cid st =
          .error ("Commission " ++ toString cid ++ " is already paid")) ∧
      (comm.status ≠ CommissionStatus.paid →
        resultOk (payCommission now cid st) = true ∧
        commissionOfPay (payCommission now cid st) =
          some { comm with status := CommissionStatus.paid, paid_at := some now } ∧
        (∀ d ∈ st.distributors, d.id = comm.distributor_id →
          ({ d with total_earnings := d.total_earnings + comm.commission_amount } :
            Distributor) ∈ distributorsAfterPay (payCommission now cid st)))) := by
  constructor
  · intro now oid st h
    unfold processPayment at h ⊢
    cases hf : st.orders.find? (fun o => decide (o.id = oid)) with
    | none => rw [hf] at h; simp [resultOk] at h
    | some cur =>
      simp only [hf, orderOfRich, ordersAfterRich, commissionsAfterRich,
        distributorsAfterRich]
      refine ⟨by simp, ?_, ?_, by simp⟩
      · intro o ho hid
        obtain ⟨o0, ho0, rfl⟩ := List.mem_map.mp ho
        by_cases h0 : o0.id = oid
        · simp [h0]
        · simp only [if_neg h0] at hid
          exact absurd hid h0
      · intro c hc hcid
        obtain ⟨c0, hc0, rfl⟩ := List.mem_map.mp hc
        by_cases h0 : c0.order_id = oid
        · simp [h0]
        · simp only [if_neg h0] at hcid
          exact absurd hcid h0
  · intro now cid st comm hfind
    constructor
    · intro hpaid
      unfold payCommission
      simp only [hfind]
      rw [if_pos hpaid]
    · intro hnot
      unfold payCommission
      simp only [hfind]
      rw [if_neg hnot]
      refine ⟨rfl, rfl, ?_⟩
      intro d hd hdid
      simp only [distributorsAfterPay]
      have hmem := List.mem_map_of_mem (fun (d2 : Distributor) =>
        if d2.id = comm.distributor_id then
          { d2 with total_earnings := d2.total_earnings + comm.commission_amount }
        else d2) hd
      simpa [hdid] using hmem

/-- Witness for C3's theorem: paying order 1 leaves the distributor's earnings
untouched, while payCommission on the pending commission of 5 succeeds and
adds 5 to the previous earnings 0, and payCommission on the already-paid
commission is rejected. -/
theorem c3_process_payment_amended_witness :
    resultOk (processPayment 7 1 fxPayState) = true ∧
    distributorsAfterRich (processPayment 7 1 fxPayState) = fxPayState.distributors ∧
    fxComm1.status ≠ CommissionStatus.paid ∧
    resultOk (payCommission 7 1 fxPayState) = true ∧
    ({ fxDist1 with
       total_earnings := fxDist1.total_earnings + fxComm1.commission_amount } :
      Distributor) ∈ distributorsAfterPay (payCommission 7 1 fxPayState) ∧
    fxCommPaid.status = CommissionStatus.paid ∧
    payCommission 7 1 fxPayStatePaid = .error "Commission 1 is already paid" :=
  ⟨by decide,
   (c3_process_payment_amended.1 7 1 fxPayState (by decide)).2.2.2,
   by decide,
   ((c3_process_payment_amended.2 7 1 fxPayState fxComm1 rfl).2 (by decide)).1,
   ((c3_process_payment_amended.2 7 1 fxPayState fxComm1 rfl).2
       (by decide)).2.2 fxDist1 (List.mem_cons_self fxDist1 []) rfl,
   by decide,
   (c3_process_payment_amended.2 7 1 fxPayStatePaid fxCommPaid rfl).1 (by decide)⟩

/-- The referral-code handling step never touches the order_items table. -/
theorem applyReferral_orderItems (oid : Nat) (finalAmount : Rat)
    (code : Option String) (st : RichState) :
    (applyReferral oid finalAmount code st).orderItems = st.orderItems := by
  unfold applyReferral
  cases code with
  | none => rfl
  | some c =>
    cases hf : st.distributors.find? (fun d => decide (d.referral_code = c)) with
    | none => simp [hf]
    | some d =>
      simp only [hf]
      by_cases h : d.status = DistributorStatus.active
      · rw [if_pos h]
      · rw [if_neg h]

/-- Each product row reappears after the restoration loop with its stock
increased by the total restored quantity for its id (purely additive, no
clamp, regardless of product type). -/
theorem restoreItems_mem :
    ∀ (vs : List OrderItem) (st : RichState) (q : Product), q ∈ st.products →
      ({ q with stock_quantity := q.stock_quantity + restoredQty q.id vs } : Product) ∈
        (restoreItems vs st).products := by
  intro vs
  induction vs with
  | nil =>
    intro st q hq
    simpa [restoreItems, restoredQty] using hq
  | cons v rest ih =>
    intro st q hq
    simp only [restoreItems]
    have hmem := List.mem_map_of_mem (fun (p : Product) =>
      if p.id = v.product_id then
        { p with stock_quantity := p.stock_quantity + v.quantity }
      else p) hq
    have hres := ih { st with products := st.products.map (fun (p : Product) =>
      if p.id = v.product_id then
        { p with stock_quantity := p.stock_quantity + v.quantity }
      else p) } _ hmem
    by_cases h : q.id = v.product_id
    · simpa [h, restoredQty, add_assoc] using hres
    · have h2 : ¬(v.product_id = q.id) := fun hh => h hh.symm
      simpa [h, h2, restoredQty] using hres

/-- The products table after the compensating writes of a cancellation is the
restoration loop applied to the order's items. -/
theorem cancelEffects_products (oid : Nat) (st : RichState) :
    (cancelEffects oid st).products =
      (restoreItems (st.orderItems.filter (fun it => decide (it.order_id = oid))) st).products :=
  rfl

/-- The commissions table after the compensating writes of a cancellation is
the cancellation write mapped over the original commissions. -/
theorem cancelEffects_commissions (oid : Nat) (st : RichState) :
    (cancelEffects oid st).commissions =
      st.commissions.map (fun (c : Commission) =>
        if c.order_id = oid then { c with status := CommissionStatus.cancelled } else c) := by
  simp only [cancelEffects]
  rw [restoreItems_commissions]

/-- C5 (amended): cancelling an order whose current status is not cancelled
succeeds, restores stock additively for EVERY order item regardless of the
product's type — each product row reappears with its stock increased by the
total quantity the order holds for it, with no clamp — and sets every
commission row of the order to cancelled. -/
theorem c5_cancel_restores_all_items (oid : Nat) (st : RichState) (cur : RichOrder)
    (hf : st.orders.find? (fun o => decide (o.id = oid)) = some cur)
    (hs : cur.status ≠ OrderStatus.cancelled) :
    resultOk (cancelOrder oid st) = true ∧
    (∀ q ∈ st.products,
      ({ q with stock_quantity := q.stock_quantity +
          restoredQty q.id (st.orderItems.filter (fun it => decide (it.order_id = oid))) } :
        Product) ∈ productsAfterRich (cancelOrder oid st)) ∧
    (∀ c ∈ commissionsAfterRich (cancelOrder oid st), c.order_id = oid →
      c.status = CommissionStatus.cancelled) := by
  unfold cancelOrder updateOrderStatus
  simp only [hf]
  rw [if_pos (show True ∧ cur.status ≠ OrderStatus.cancelled from ⟨trivial, hs⟩)]
  refine ⟨rfl, ?_, ?_⟩
  · intro q hq
    simp only [productsAfterRich]
    exact restoreItems_mem _ _ _ hq
  · intro c hc hcid
    simp only [commissionsAfterRich] at hc
    have hc2 : c ∈ (cancelEffects oid st).commissions := hc
    rw [cancelEffects_commissions] at hc2
    obtain ⟨c0, hc0, rfl⟩ := List.mem_map.mp hc2
    by_cases h0 : c0.order_id = oid
    · simp [h0]
    · simp only [if_neg h0] at hcid
      exact absurd hcid h0

/-- Witness for C5's theorem: cancelling the pending order of 3 units of the
virtual product (stock 10) puts the row back with stock 13. -/
theorem c5_cancel_restores_all_items_witness :
    (fxCancelState.orders.find? (fun o => decide (o.id = 1)) = some fxOrder1) ∧
    fxOrder1.status ≠ OrderStatus.cancelled ∧
    ({ fxVirtual10 with stock_quantity := 13 } : Product) ∈
      productsAfterRich (cancelOrder 1 fxCancelState) :=
  ⟨by decide, by decide,
    (c5_cancel_restores_all_items 1 fxCancelState fxOrder1 (by decide) (by decide)).2.1
      fxVirtual10 (by decide)⟩

/-- C8 (amended): an input with an empty items list passes schema validation,
and in the referral-code variant, whenever the user and the address exist,
createOrder proceeds and persists an order with total_amount 0 and no order
items. -/
theorem c8_empty_items_accepted (ordNum : String) (input : CreateOrderRichInput)
    (st : RichState) (u : User) (a : Address)
    (hitems : input.items = [])
    (hu : st.users.find? (fun x => decide (x.id = input.user_id)) = some u)
    (ha : st.addresses.find? (fun x => decide (x.id = input.shipping_address_id)) = some a) :
    richInputValid input = true ∧
    (orderOfRich (createOrderRich ordNum input st)).map (fun o => o.total_amount) =
      some 0 ∧
    orderItemsAfterRich (createOrderRich ordNum input st) = st.orderItems := by
  refine ⟨by simp [richInputValid, hitems], ?_, ?_⟩
  · simp only [createOrderRich, hu, ha, hitems, validateItemsRich, orderOfRich,
      insertItemsAndDecrement]
    simp
  · simp only [createOrderRich, hu, ha, hitems, validateItemsRich,
      orderItemsAfterRich, insertItemsAndDecrement]
    rw [applyReferral_orderItems]

/-- Witness for C8's theorem: with user 1 and address 1 present, the empty
items list passes validation and creates an order of total_amount 0. -/
theorem c8_empty_items_accepted_witness :
    (fxRichInput []).items = [] ∧
    ((fxRich [fxPhysical5]).users.find? (fun x =>
        decide (x.id = (fxRichInput []).user_id)) = some fxUser) ∧
    ((fxRich [fxPhysical5]).addresses.find? (fun x =>
        decide (x.id = (fxRichInput []).shipping_address_id)) = some fxAddr) ∧
    (orderOfRich (createOrderRich "O" (fxRichInput []) (fxRich [fxPhysical5]))).map
      (fun o => o.total_amount) = some 0 :=
  ⟨rfl, by decide, by decide,
    (c8_empty_items_accepted "O" (fxRichInput []) (fxRich [fxPhysical5]) fxUser fxAddr
      rfl (by decide) (by decide)).2.1⟩

end ECom
